import Mathlib

/-!
# QtWebsocket: the server side of the opening handshake (`QWsServer.cpp`)

A shallow embedding of the response composers, of the pending-connection queue and of the
`dataReceived` dispatch of `QWebSocketServer`, followed by the properties proved about them.

Conventions of the embedding:

* a `QChar` is one UTF-16 code unit, kept as a natural number; a `QString` is the list of its
  code units; a `QByteArray` is the list of its bytes (naturals below 256);
* the Qt library routines the server calls (`QString::arg`, `QLatin1String`, `toLatin1`,
  `QString::number`, `startsWith`, `QQueue`) are embedded next to the server code, each with a
  note on the Qt behaviour it follows;
* code of the repository that lives in other files (`QWsHandshake`, `QWebSocket`) and Qt
  routines whose result is only passed on (`toUtf8`, case folding) are fields of `Externals`.
-/

namespace QtWebsocket

/-! ## Text and bytes -/

/-- One UTF-16 code unit. -/
abbrev QChar := Nat

/-- A Qt string: its UTF-16 code units, in order. -/
abbrev QString := List QChar

/-- A Qt byte array: its bytes, in order, each a natural number below 256. -/
abbrev QByteArray := List Nat

/-- The text of a C string literal of the source (all of them are plain ASCII), as a `QString`.
Both `QLatin1String("...")` and `QString("...")` of a literal give this text. -/
def literal (s : String) : QString := s.toList.map Char.toNat

/-- The Latin-1 text of a byte array, as `QLatin1String(ba)` hands it to `QString`: every byte
becomes the code unit with the same value. The bytes are read as a C string (Qt 4 converts the
array to `const char*` and measures it with `strlen`, Qt 5 measures it with `qstrnlen`), so the
text stops before the first zero byte. -/
def QLatin1String (ba : QByteArray) : QString := ba.takeWhile (fun b => b != 0)

/-- The Latin-1 bytes of a text, `QString::toLatin1`: a code unit above 0xFF becomes `?`. -/
def toLatin1 (s : QString) : QByteArray := s.map (fun u => if u > 0xff then 63 else u)

/-- The decimal text of an unsigned number, `QString::number`. -/
def number (n : Nat) : QString := (Nat.toDigits 10 n).map Char.toNat

/-! ## `QString::arg` -/

/-- A piece of a format string as `QString::arg` reads it: an ordinary code unit, or a place
marker (`%`, an optional `L`, one or two decimal digits) with its number and its own text. -/
inductive ArgPiece where
  | text (c : QChar)
  | marker (n : Nat) (raw : QString)
  deriving DecidableEq, Repr

/-- A decimal digit `0`..`9`. -/
def isDigit (c : QChar) : Bool := decide (48 ≤ c) && decide (c ≤ 57)

/-- The scan of Qt's `findArgEscapes`: a `%` starts a place marker when it is followed, after an
optional `L`, by a digit; a second digit right after the first belongs to the marker too. Any
other `%` is ordinary text, and the scan resumes at the code unit that was not a digit. The
digits are `0`..`9`; Qt releases that ask `QChar::digitValue` accept the other decimal digits of
Unicode as well, which changes nothing for the templates of this file, whose markers are
ASCII. -/
def findArgEscapes : QString → List ArgPiece
  | [] => []
  | c :: rest =>
    if c = 37 then
      match rest with
      | [] => [.text 37]
      | d :: rest1 =>
        if d = 76 then
          match rest1 with
          | [] => [.text 37, .text 76]
          | e :: rest2 =>
            if isDigit e then
              match rest2 with
              | [] => [.marker (e - 48) [37, 76, e]]
              | f :: rest3 =>
                if isDigit f then
                  .marker (10 * (e - 48) + (f - 48)) [37, 76, e, f] :: findArgEscapes rest3
                else
                  .marker (e - 48) [37, 76, e] :: findArgEscapes (f :: rest3)
            else
              .text 37 :: .text 76 :: findArgEscapes (e :: rest2)
        else if isDigit d then
          match rest1 with
          | [] => [.marker (d - 48) [37, d]]
          | f :: rest2 =>
            if isDigit f then
              .marker (10 * (d - 48) + (f - 48)) [37, d, f] :: findArgEscapes rest2
            else
              .marker (d - 48) [37, d] :: findArgEscapes (f :: rest2)
        else
          .text 37 :: findArgEscapes (d :: rest1)
    else
      .text c :: findArgEscapes rest

/-- The lowest place-marker number among the pieces (`min_escape`), if there is a marker. -/
def minEscape : List ArgPiece → Option Nat
  | [] => none
  | .text _ :: ps => minEscape ps
  | .marker n _ :: ps =>
    match minEscape ps with
    | none => some n
    | some m => some (min n m)

/-- The copy made by Qt's `replaceArgEscapes` (field width 0): every marker numbered `m` is
replaced by `a`, every other piece is copied as it stands. -/
def replaceArgEscapes (m : Nat) (a : QString) : List ArgPiece → QString
  | [] => []
  | .text c :: ps => c :: replaceArgEscapes m a ps
  | .marker n raw :: ps => (if n = m then a else raw) ++ replaceArgEscapes m a ps

/-- The text the pieces were scanned from. -/
def rawText : List ArgPiece → QString
  | [] => []
  | .text c :: ps => c :: rawText ps
  | .marker _ raw :: ps => raw ++ rawText ps

/-- The call `s.arg(a)` for a string argument: all occurrences of the lowest-numbered place
marker of `s` are replaced by `a`; a string without a place marker is returned unchanged. -/
def arg (s a : QString) : QString :=
  match minEscape (findArgEscapes s) with
  | none => s
  | some m => replaceArgEscapes m a (findArgEscapes s)

/-- The call `s.startsWith(p, Qt::CaseInsensitive)`: `s` is at least as long as `p` and the
code units agree position by position after case folding. The folding of a code unit is a
parameter, Qt takes it from its Unicode tables. -/
def startsWith (foldCase : QChar → QChar) : QString → QString → Bool
  | _, [] => true
  | [], _ :: _ => false
  | c :: s, d :: p => (foldCase c == foldCase d) && startsWith foldCase s p

/-- A value of the enumeration `EWebsocketVersion`, kept as its integer value. -/
abbrev EWebsocketVersion := Int

/-- Modelled from the spec: the enumerators of `EWebsocketVersion` are declared in
`QWsSocket.h`, which is not part of the sources at hand; each one has the number of the
protocol version it names (Hixie76 is version 0). -/
def WS_V0 : EWebsocketVersion := 0

/-- Modelled from the spec: the enumerator of draft 4 (see `WS_V0`). -/
def WS_V4 : EWebsocketVersion := 4

/-- Modelled from the spec: the enumerator of draft 6 (see `WS_V0`). -/
def WS_V6 : EWebsocketVersion := 6

/-- Modelled from the spec: the enumerator of draft 7 (see `WS_V0`). -/
def WS_V7 : EWebsocketVersion := 7

/-- Modelled from the spec: the enumerator of draft 8 (see `WS_V0`). -/
def WS_V8 : EWebsocketVersion := 8

/-- Modelled from the spec: the enumerator of RFC 6455, version 13 (see `WS_V0`). -/
def WS_V13 : EWebsocketVersion := 13

/-- The cast `(quint16)v` of an enumeration value. -/
def toQuint16 (v : EWebsocketVersion) : Nat := (v % 65536).toNat

/-! ## The response composers -/

/-- `QWebSocketServer::composeOpeningHandshakeResponseV0`. `foldCase` is Qt's case folding of a
code unit, used by the case-insensitive `startsWith`. -/
def composeOpeningHandshakeResponseV0 (foldCase : QChar → QChar) (accept : QByteArray)
    (origin hostAddress hostPort resourceName protocol : QString) : QString :=
  let response : QString := []
  let response := response ++ literal "HTTP/1.1 101 WebSocket Protocol Handshake\r\n"
  let response := response ++ literal "Upgrade: Websocket\r\n"
  let response := response ++ literal "Connection: Upgrade\r\n"
  let response := response ++ arg (literal "Sec-WebSocket-Origin: %1\r\n") origin
  let hostAddress :=
    if !startsWith foldCase hostAddress (literal "ws://") then literal "ws://" ++ hostAddress
    else hostAddress
  let hostPort := if !hostPort.isEmpty then 58 :: hostPort else hostPort
  let response := response ++
    arg (arg (arg (literal "Sec-WebSocket-Location: %1%2%3\r\n") hostAddress) hostPort)
      resourceName
  let response :=
    if !protocol.isEmpty then
      response ++ arg (literal "Sec-WebSocket-Protocol: %1\r\n") protocol
    else response
  let response := response ++ literal "\r\n"
  let response := response ++ QLatin1String accept
  response

/-- `QWebSocketServer::composeOpeningHandshakeResponseV4`. -/
def composeOpeningHandshakeResponseV4 (accept nonce : QByteArray)
    (protocol extensions : QString) : QString :=
  let response : QString := []
  let response := response ++ literal "HTTP/1.1 101 WebSocket Protocol Handshake\r\n"
  let response := response ++ literal "Upgrade: websocket\r\n"
  let response := response ++ literal "Connection: Upgrade\r\n"
  let response := response ++ arg (literal "Sec-WebSocket-Accept: %1\r\n") (QLatin1String accept)
  let response := response ++ arg (literal "Sec-WebSocket-Nonce: %1\r\n") (QLatin1String nonce)
  let response :=
    if !protocol.isEmpty then
      response ++ arg (literal "Sec-WebSocket-Protocol: %1\r\n") protocol
    else response
  let response :=
    if !extensions.isEmpty then
      response ++ arg (literal "Sec-WebSocket-Extensions: %1\r\n") extensions
    else response
  let response := response ++ literal "\r\n"
  response

/-- `QWebSocketServer::composeOpeningHandshakeResponseV6`. -/
def composeOpeningHandshakeResponseV6 (accept : QByteArray)
    (protocol extensions : QString) : QString :=
  let response : QString := []
  let response := response ++ literal "HTTP/1.1 101 WebSocket Protocol Handshake\r\n"
  let response := response ++ literal "Upgrade: websocket\r\n"
  let response := response ++ literal "Connection: Upgrade\r\n"
  let response := response ++ arg (literal "Sec-WebSocket-Accept: %1\r\n") (QLatin1String accept)
  let response :=
    if !protocol.isEmpty then
      response ++ arg (literal "Sec-WebSocket-Protocol: %1\r\n") protocol
    else response
  let response :=
    if !extensions.isEmpty then
      response ++ arg (literal "Sec-WebSocket-Extensions: %1\r\n") extensions
    else response
  let response := response ++ literal "\r\n"
  response

/-- The loop `int i = versions.size(); while (i--) { ... }` of `composeBadRequestResponse`,
entered with `i` iterations left: an iteration appends the number of the entry at index `i - 1`
and, unless that index is 0, the separator. -/
def versionsLoop (versions : List EWebsocketVersion) : Nat → QString → QString
  | 0, versionsStr => versionsStr
  | i + 1, versionsStr =>
    let versionsStr := versionsStr ++ number (toQuint16 (versions.getD i 0))
    let versionsStr := if i ≠ 0 then versionsStr ++ literal ", " else versionsStr
    versionsLoop versions i versionsStr

/-- `QWebSocketServer::composeBadRequestResponse`. -/
def composeBadRequestResponse (versions : List EWebsocketVersion) : QString :=
  let response : QString := []
  let response := response ++ literal "HTTP/1.1 400 Bad Request\r\n"
  let response :=
    if !versions.isEmpty then
      let versionsStr := versionsLoop versions versions.length []
      response ++ arg (literal "Sec-WebSocket-Version: %1\r\n") versionsStr
    else response
  response

/-! ## The pending-connection queue -/

/-- `QQueue::enqueue`: the entry is appended at the tail. -/
def enqueue {α : Type} (q : List α) (t : α) : List α := q ++ [t]

/-- `QList::first`, which starts with `Q_ASSERT(!isEmpty())`: the head of a non-empty list;
on an empty list the assertion fails and there is no result. -/
def first {α : Type} : List α → Option α
  | [] => none
  | t :: _ => some t

/-- `QList::removeFirst`, which starts with `Q_ASSERT(!isEmpty())`: the list without its head;
on an empty list the assertion fails and there is no result. -/
def removeFirst {α : Type} : List α → Option (List α)
  | [] => none
  | _ :: q => some q

/-- `QList::takeFirst`: `T t = first(); removeFirst(); return t;`. -/
def takeFirst {α : Type} (q : List α) : Option (α × List α) :=
  match first q with
  | none => none
  | some t =>
    match removeFirst q with
    | none => none
    | some q1 => some (t, q1)

/-- `QQueue::dequeue`: `return QList<T>::takeFirst();`. -/
def dequeue {α : Type} (q : List α) : Option (α × List α) := takeFirst q

/-- The part of a `QWebSocketServer` that the queue operations use: the queue of ready
connections and the limit that `tcpServer->maxPendingConnections()` reports (an `int`). -/
structure QWebSocketServer (α : Type) where
  pendingConnections : List α
  maxPendingConnections : Int

/-- `QWebSocketServer::addPendingConnection`. -/
def addPendingConnection {α : Type} (server : QWebSocketServer α) (socket : α) :
    QWebSocketServer α :=
  if (server.pendingConnections.length : Int) < server.maxPendingConnections then
    { server with pendingConnections := enqueue server.pendingConnections socket }
  else server

/-- `QWebSocketServer::nextPendingConnection`: the connection returned and the server after the
call, or no result when `QQueue::dequeue` has none. -/
def nextPendingConnection {α : Type} (server : QWebSocketServer α) :
    Option (α × QWebSocketServer α) :=
  match dequeue server.pendingConnections with
  | none => none
  | some (socket, q) => some (socket, { server with pendingConnections := q })

/-- `QWebSocketServer::hasPendingConnections`. -/
def hasPendingConnections {α : Type} (server : QWebSocketServer α) : Bool :=
  if server.pendingConnections.length > 0 then true else false

/-! ## `dataReceived` -/

/-- The fields of a `QWsHandshake` that `dataReceived` reads. -/
structure QWsHandshake where
  readStarted : Bool
  complete : Bool
  httpRequestValid : Bool
  version : EWebsocketVersion
  key : QByteArray
  key1 : QByteArray
  key2 : QByteArray
  key3 : QByteArray
  origin : QString
  host : QString
  hostAddress : QString
  hostPort : QString
  resourceName : QString
  protocol : QString
  extensions : QString

/-- The `QWebSocket` that `dataReceived` builds: the raw socket it wraps, the version it is
constructed with and the values given to its setters (`setWsMode(WsServerMode)` sets
`serverMode`). -/
structure QWebSocket where
  tcpSocket : Nat
  version : EWebsocketVersion
  resourceName : QString
  host : QString
  hostAddress : QString
  hostPort : Nat
  origin : QString
  protocol : QString
  extensions : QString
  serverMode : Bool
  deriving DecidableEq, Repr

/-- A call on the raw socket. -/
inductive SocketOp where
  | write (data : QByteArray)
  | flush
  | close
  deriving DecidableEq, Repr

/-- What `dataReceived` calls without its definition being in `QWsServer.cpp`: Qt's
`QString::toUtf8`, `QString::toUInt` and case folding of a code unit; `QWsHandshake::isValid`;
`QWebSocket::computeAcceptV4`, `QWebSocket::computeAcceptV0` and the value returned by the call
of `QWebSocket::generateNonce`; and the default value that `QWsServer.h` declares for the
`extensions` parameter of the draft-4 and draft-6 composers. -/
structure Externals where
  foldCase : QChar → QChar
  toUtf8 : QString → QByteArray
  toUInt : QString → Nat
  isValid : QWsHandshake → Bool
  computeAcceptV4 : QByteArray → QByteArray
  computeAcceptV0 : QByteArray → QByteArray → QByteArray → QByteArray
  generateNonce : QByteArray
  defaultExtensions : QString

/-- The outcome of one call of `dataReceived`: the calls made on the raw socket, in order;
whether the handshake state of the socket was taken out of `handshakeBuffer` and deleted; the
server afterwards; whether `newConnection()` was emitted. -/
structure DataReceived where
  socketOps : List SocketOp
  handshakeTaken : Bool
  server : QWebSocketServer QWebSocket
  newConnection : Bool

/-- The static function `showErrorAndClose`: the calls it makes on the raw socket. -/
def showErrorAndClose (ext : Externals) : List SocketOp :=
  let response := composeBadRequestResponse [WS_V6, WS_V7, WS_V8, WS_V13]
  [.write (ext.toUtf8 response), .flush, .close]

/-- The bytes `dataReceived` composes for a handshake that passed all checks. -/
def handshakeResponse (ext : Externals) (handshake : QWsHandshake) : QByteArray :=
  if handshake.version ≥ WS_V6 then
    let accept := ext.computeAcceptV4 handshake.key
    ext.toUtf8 (composeOpeningHandshakeResponseV6 accept handshake.protocol ext.defaultExtensions)
  else if handshake.version ≥ WS_V4 then
    let accept := ext.computeAcceptV4 handshake.key
    let nonce := ext.generateNonce
    ext.toUtf8
      (composeOpeningHandshakeResponseV4 accept nonce handshake.protocol ext.defaultExtensions)
  else
    let accept := ext.computeAcceptV0 handshake.key1 handshake.key2 handshake.key3
    toLatin1 (composeOpeningHandshakeResponseV0 ext.foldCase accept handshake.origin
      handshake.hostAddress handshake.hostPort handshake.resourceName handshake.protocol)

/-- `QWebSocketServer::dataReceived`. `sender` is the raw socket that raised `readyRead`, if
the sender is one; `readResult` is what `handshake.read(tcpSocket)` returned and `handshake` the
state of the handshake after that call. -/
def dataReceived (ext : Externals) (server : QWebSocketServer QWebSocket) (sender : Option Nat)
    (readResult : Bool) (handshake : QWsHandshake) : DataReceived :=
  match sender with
  | none => ⟨[], false, server, false⟩
  | some tcpSocket =>
    if readResult == false then
      ⟨showErrorAndClose ext, false, server, false⟩
    else if !handshake.readStarted || !handshake.complete then
      if handshake.readStarted && !handshake.httpRequestValid then
        ⟨showErrorAndClose ext, false, server, false⟩
      else ⟨[], false, server, false⟩
    else if !ext.isValid handshake then
      ⟨showErrorAndClose ext, false, server, false⟩
    else
      let response := handshakeResponse ext handshake
      let wsSocket : QWebSocket :=
        { tcpSocket := tcpSocket
          version := handshake.version
          resourceName := handshake.resourceName
          host := handshake.host
          hostAddress := handshake.hostAddress
          hostPort := ext.toUInt handshake.hostPort
          origin := handshake.origin
          protocol := handshake.protocol
          extensions := handshake.extensions
          serverMode := true }
      ⟨[.write response, .flush], true, addPendingConnection server wsSocket, true⟩

/-! ## Concrete values for evaluating the embedding -/

/-- Case folding on the ASCII range: `A`..`Z` fold to `a`..`z`, everything else to itself. -/
def foldCaseAscii (c : QChar) : QChar := if 65 ≤ c ∧ c ≤ 90 then c + 32 else c

/-- A 16-byte accept token with a zero byte in third place and a byte above 0x7F. -/
def acceptWithZeroByte : QByteArray :=
  [0x38, 0x6e, 0x00, 0x31, 0x6d, 0x4a, 0x5b, 0x31, 0x38, 0x7e, 0x41, 0x4d, 0x39, 0xe2, 0x7f, 0x2a]

/-- A choice of the external routines for evaluating `dataReceived` on plain ASCII examples.
On ASCII text the UTF-8 bytes are the code units themselves and case folding is `foldCaseAscii`.
The rest are fixed stand-ins: a handshake counts as valid when its request is marked valid, the
draft-4 accept token is always the one of the sample key of RFC 6455, the Hixie76 accept token
is always `acceptWithZeroByte`, the nonce is `bm9uY2U=` and no extensions are passed. -/
def asciiExternals : Externals where
  foldCase := foldCaseAscii
  toUtf8 := fun s => s
  toUInt := fun _ => 0
  isValid := fun h => h.httpRequestValid
  computeAcceptV4 := fun _ => literal "s3pPLMBiTxaQ9kYGzzhZRbK+xOo="
  computeAcceptV0 := fun _ _ _ => acceptWithZeroByte
  generateNonce := literal "bm9uY2U="
  defaultExtensions := []

/-- A handshake state for the examples: everything empty, version 13, nothing read yet. -/
def emptyHandshake : QWsHandshake where
  readStarted := false
  complete := false
  httpRequestValid := false
  version := WS_V13
  key := []
  key1 := []
  key2 := []
  key3 := []
  origin := []
  host := []
  hostAddress := []
  hostPort := []
  resourceName := []
  protocol := []
  extensions := []

/-! ## The bad-request response -/

/-- Joining a non-empty list of texts: the first text, then, if more follow, the separator and
the join of the rest. -/
theorem intercalate_cons_eq (sep x : QString) (xs : List QString) :
    List.intercalate sep (x :: xs) =
      x ++ (if xs = [] then [] else sep ++ List.intercalate sep xs) := by
  cases xs with
  | nil => simp [List.intercalate]
  | cons y ys => simp [List.intercalate, List.intersperse]

/-- The loop of `composeBadRequestResponse`, entered with `n` iterations left, appends the numbers
of the first `n` entries from the last of them down to the first, separated by `", "`. -/
theorem versionsLoop_eq (versions : List EWebsocketVersion) (n : Nat) (hn : n ≤ versions.length)
    (acc : QString) :
    versionsLoop versions n acc =
      acc ++ List.intercalate (literal ", ")
        (((versions.take n).reverse).map (fun v => number (toQuint16 v))) := by
  induction n generalizing acc with
  | zero => simp [versionsLoop, List.intercalate]
  | succ i ih =>
    have hi : i < versions.length := hn
    have hnil : (List.map (fun v => number (toQuint16 v)) (List.take i versions).reverse = []) ↔
        i = 0 := by
      rw [List.map_eq_nil_iff, List.reverse_eq_nil_iff, List.take_eq_nil_iff]
      constructor
      · rintro (h | h)
        · exact h
        · subst h
          simp at hi
      · exact Or.inl
    rw [versionsLoop, ih (Nat.le_of_lt hi), List.take_succ, List.getD_eq_getElem?_getD,
      List.getElem?_eq_getElem hi]
    simp only [Option.getD_some, Option.toList_some, List.reverse_append, List.reverse_cons,
      List.reverse_nil, List.nil_append, List.singleton_append, List.map_cons, intercalate_cons_eq,
      hnil]
    by_cases h0 : i = 0
    · subst h0
      simp [List.intercalate]
    · simp [h0]

/-- The digits produced by `Nat.toDigitsCore` are put in front of the digits it is given. -/
theorem toDigitsCore_append (b f n : Nat) (ds : List Char) :
    Nat.toDigitsCore b f n ds = Nat.toDigitsCore b f n [] ++ ds := by
  induction f generalizing n ds with
  | zero => simp [Nat.toDigitsCore]
  | succ f ih =>
    simp only [Nat.toDigitsCore]
    by_cases h : n / b = 0
    · simp [h]
    · simp only [h, if_false]
      rw [ih (n / b) (Nat.digitChar (n % b) :: ds), ih (n / b) [Nat.digitChar (n % b)]]
      simp

/-- The decimal text of a number ends with the digit of its units. -/
theorem number_eq_append_digit (n : Nat) :
    ∃ front : QString, number n = front ++ [(Nat.digitChar (n % 10)).toNat] := by
  unfold number Nat.toDigits
  simp only [Nat.toDigitsCore]
  by_cases h : n / 10 = 0
  · exact ⟨[], by simp [h]⟩
  · refine ⟨(Nat.toDigitsCore 10 n (n / 10) []).map Char.toNat, ?_⟩
    simp only [h, if_false]
    rw [toDigitsCore_append]
    simp

/-- A decimal digit is not a line feed. -/
theorem digitChar_ne_line_feed (k : Nat) (hk : k < 10) : (Nat.digitChar k).toNat ≠ 10 := by
  interval_cases k <;> decide

/-- For every list of versions the bad-request response does not end with a blank line: after
the status line, or after the last digit of the version header, comes one line end and nothing
else. -/
theorem composeBadRequestResponse_never_blank_line (versions : List EWebsocketVersion) :
    ¬ (literal "\r\n\r\n" <:+ composeBadRequestResponse versions) := by
  unfold composeBadRequestResponse
  cases versions with
  | nil => decide
  | cons v vs =>
    have harg : ∀ a : QString, arg (literal "Sec-WebSocket-Version: %1\r\n") a =
        literal "Sec-WebSocket-Version: " ++ a ++ literal "\r\n" := fun _ => rfl
    obtain ⟨front, hfront⟩ := number_eq_append_digit (toQuint16 v)
    have hloop : versionsLoop (v :: vs) (v :: vs).length [] =
        List.intercalate (literal ", ") ((vs.reverse).map (fun v => number (toQuint16 v)) ++
          [number (toQuint16 v)]) := by
      rw [versionsLoop_eq (v :: vs) (v :: vs).length (Nat.le_refl _) []]
      simp
    have hlast : ∃ front2 : QString, versionsLoop (v :: vs) (v :: vs).length [] =
        front2 ++ [(Nat.digitChar (toQuint16 v % 10)).toNat] := by
      rw [hloop]
      generalize (vs.reverse).map (fun v => number (toQuint16 v)) = xs
      induction xs with
      | nil => exact ⟨front, by simpa [List.intercalate] using hfront⟩
      | cons x xs ih =>
        obtain ⟨f2, hf2⟩ := ih
        refine ⟨x ++ literal ", " ++ f2, ?_⟩
        rw [List.cons_append, intercalate_cons_eq]
        have hne : xs ++ [number (toQuint16 v)] ≠ [] := by simp
        simp only [hne, if_false, hf2]
        simp
    obtain ⟨front2, hf2⟩ := hlast
    simp only [List.isEmpty_cons, Bool.not_false, if_true, harg, hf2]
    have e2 : literal "\r\n" = [13, 10] := rfl
    have e4 : literal "\r\n\r\n" = [13, 10, 13, 10] := rfl
    rw [e2, e4]
    rintro ⟨t, ht⟩
    have hrev := congrArg List.reverse ht
    simp only [List.reverse_append, List.reverse_cons, List.reverse_nil, List.nil_append,
      List.cons_append, List.singleton_append, List.append_assoc, List.cons.injEq, true_and]
      at hrev
    exact digitChar_ne_line_feed (toQuint16 v % 10) (Nat.mod_lt _ (by decide)) hrev.1.symm

/-- C9 (as stated, refuted): for the list 13, 6 the header value is `6, 13`, in ascending
order, and not `13, 6`. -/
theorem composeBadRequestResponse_not_sorted :
    composeBadRequestResponse [WS_V13, WS_V6] =
        literal "HTTP/1.1 400 Bad Request\r\nSec-WebSocket-Version: 6, 13\r\n" ∧
      composeBadRequestResponse [WS_V13, WS_V6] ≠
        literal "HTTP/1.1 400 Bad Request\r\nSec-WebSocket-Version: 13, 6\r\n" := by
  decide

/-- C9 (amended): `composeBadRequestResponse` returns the status line `HTTP/1.1 400 Bad Request`
followed, for a non-empty list, by one `Sec-WebSocket-Version` header whose value lists the
number of every entry of the list once per entry, separated by `", "`, in the reverse of the
order of the list; so the numbers are listed in descending order whenever the list gives them
in ascending order. For the empty list it returns the status line alone. -/
theorem composeBadRequestResponse_reverse_order (versions : List EWebsocketVersion) :
    composeBadRequestResponse versions =
        literal "HTTP/1.1 400 Bad Request\r\n" ++
          (if versions = [] then []
           else literal "Sec-WebSocket-Version: " ++
             List.intercalate (literal ", ")
               (versions.reverse.map (fun v => number (toQuint16 v))) ++
             literal "\r\n") ∧
      (List.Pairwise (fun a b => a < b) (versions.map toQuint16) →
        List.Pairwise (fun a b => a > b) (versions.reverse.map toQuint16)) := by
  refine ⟨?_, fun h => by rw [List.map_reverse]; exact List.pairwise_reverse.mpr h⟩
  unfold composeBadRequestResponse
  cases versions with
  | nil => rfl
  | cons v vs =>
    have harg : ∀ a : QString, arg (literal "Sec-WebSocket-Version: %1\r\n") a =
        literal "Sec-WebSocket-Version: " ++ a ++ literal "\r\n" := fun _ => rfl
    simp only [List.isEmpty_cons, Bool.not_false, if_true, harg,
      versionsLoop_eq (v :: vs) (v :: vs).length (Nat.le_refl _) [], List.take_length,
      List.nil_append]
    simp

/-- Witness of `composeBadRequestResponse_reverse_order` at the list that `showErrorAndClose`
passes. -/
theorem composeBadRequestResponse_reverse_order_witness :
    List.Pairwise (fun a b => a < b) ([WS_V6, WS_V7, WS_V8, WS_V13].map toQuint16) ∧
      composeBadRequestResponse [WS_V6, WS_V7, WS_V8, WS_V13] =
        literal "HTTP/1.1 400 Bad Request\r\nSec-WebSocket-Version: 13, 8, 7, 6\r\n" ∧
      List.Pairwise (fun a b => a > b) ([WS_V6, WS_V7, WS_V8, WS_V13].reverse.map toQuint16) :=
  have h : List.Pairwise (fun a b => a < b) ([WS_V6, WS_V7, WS_V8, WS_V13].map toQuint16) := by
    decide
  ⟨h, (composeBadRequestResponse_reverse_order [WS_V6, WS_V7, WS_V8, WS_V13]).1.trans (by decide),
    (composeBadRequestResponse_reverse_order [WS_V6, WS_V7, WS_V8, WS_V13]).2 h⟩

/-! ## The pending-connection queue -/

/-- C5: `addPendingConnection` appends the connection at the tail exactly when the queue holds
fewer than `maxPendingConnections` entries and otherwise leaves the queue as it is; so a queue
within the limit stays within it, and the entries already queued stay a prefix of the queue.
The limit itself is never changed. -/
theorem addPendingConnection_bounded {α : Type} (server : QWebSocketServer α) (socket : α) :
    ((server.pendingConnections.length : Int) < server.maxPendingConnections →
        (addPendingConnection server socket).pendingConnections =
          server.pendingConnections ++ [socket]) ∧
      (¬ (server.pendingConnections.length : Int) < server.maxPendingConnections →
        (addPendingConnection server socket).pendingConnections = server.pendingConnections) ∧
      ((server.pendingConnections.length : Int) ≤ server.maxPendingConnections →
        ((addPendingConnection server socket).pendingConnections.length : Int) ≤
          server.maxPendingConnections) ∧
      server.pendingConnections <+: (addPendingConnection server socket).pendingConnections ∧
      (addPendingConnection server socket).maxPendingConnections =
        server.maxPendingConnections := by
  unfold addPendingConnection enqueue
  by_cases h : (server.pendingConnections.length : Int) < server.maxPendingConnections
  · simp only [h, if_true, not_true_eq_false, List.length_append, List.length_singleton,
      List.prefix_append, true_implies, false_implies, true_and, and_true]
    intro _
    push_cast
    omega
  · simp [h]

/-- Witness of `addPendingConnection_bounded`: a queue of two under a limit of three takes the
connection, a queue of two under a limit of two drops it. -/
theorem addPendingConnection_bounded_witness :
    (addPendingConnection (⟨[10, 11], 3⟩ : QWebSocketServer Nat) 12).pendingConnections =
        [10, 11] ++ [12] ∧
      (addPendingConnection (⟨[10, 11], 2⟩ : QWebSocketServer Nat) 12).pendingConnections =
        [10, 11] ∧
      (((addPendingConnection (⟨[10, 11], 2⟩ : QWebSocketServer Nat) 12).pendingConnections.length :
        Int) ≤ 2) :=
  ⟨(addPendingConnection_bounded (⟨[10, 11], 3⟩ : QWebSocketServer Nat) 12).1 (by decide),
    (addPendingConnection_bounded (⟨[10, 11], 2⟩ : QWebSocketServer Nat) 12).2.1 (by decide),
    (addPendingConnection_bounded (⟨[10, 11], 2⟩ : QWebSocketServer Nat) 12).2.2.1 (by decide)⟩

/-- C4 (as stated, refuted): on an empty pending queue `nextPendingConnection` has no result;
the assertion of `QList::first` fails. -/
theorem nextPendingConnection_empty_undefined :
    ¬ ∃ r, nextPendingConnection (⟨[], 30⟩ : QWebSocketServer Nat) = some r := by
  rintro ⟨r, h⟩
  simp [nextPendingConnection, dequeue, takeFirst, first] at h

/-- C4 (amended): on a non-empty pending queue `nextPendingConnection` removes and returns the
oldest entry, the head, and leaves the remaining entries in order and the limit untouched; on
an empty pending queue it has no result, because `QQueue::dequeue` requires a non-empty queue
and nothing guards the call. -/
theorem nextPendingConnection_fifo {α : Type} (server : QWebSocketServer α) :
    (∀ socket rest, server.pendingConnections = socket :: rest →
        nextPendingConnection server =
          some (socket, ⟨rest, server.maxPendingConnections⟩)) ∧
      (server.pendingConnections = [] → nextPendingConnection server = none) := by
  constructor
  · intro socket rest h
    simp [nextPendingConnection, dequeue, takeFirst, first, removeFirst, h]
  · intro h
    simp [nextPendingConnection, dequeue, takeFirst, first, h]

/-- Witness of `nextPendingConnection_fifo`: from the queue 10, 11, 12 the call returns 10 and
leaves 11, 12; from the empty queue it has no result. -/
theorem nextPendingConnection_fifo_witness :
    nextPendingConnection (⟨[10, 11, 12], 30⟩ : QWebSocketServer Nat) =
        some (10, ⟨[11, 12], 30⟩) ∧
      nextPendingConnection (⟨[], 30⟩ : QWebSocketServer Nat) = none :=
  ⟨(nextPendingConnection_fifo (⟨[10, 11, 12], 30⟩ : QWebSocketServer Nat)).1 10 [11, 12] rfl,
    (nextPendingConnection_fifo (⟨[], 30⟩ : QWebSocketServer Nat)).2 rfl⟩

/-! ## The draft-4 and draft-6 responses -/

/-- A byte array without a zero byte is read in full by `QLatin1String`. -/
theorem QLatin1String_eq_self (ba : QByteArray) (h : ∀ b ∈ ba, b ≠ 0) :
    QLatin1String ba = ba := by
  unfold QLatin1String
  rw [List.takeWhile_eq_self_iff]
  intro b hb
  simpa using h b hb

/-- A header template with the single place marker `%1` before its line end: `arg` puts the
argument in place of the marker, whatever the argument contains. -/
theorem arg_accept_line (a : QString) :
    arg (literal "Sec-WebSocket-Accept: %1\r\n") a =
      literal "Sec-WebSocket-Accept: " ++ a ++ literal "\r\n" := rfl

/-- The nonce line: `arg` puts the argument in place of `%1`. -/
theorem arg_nonce_line (a : QString) :
    arg (literal "Sec-WebSocket-Nonce: %1\r\n") a =
      literal "Sec-WebSocket-Nonce: " ++ a ++ literal "\r\n" := rfl

/-- The protocol line: `arg` puts the argument in place of `%1`. -/
theorem arg_protocol_line (a : QString) :
    arg (literal "Sec-WebSocket-Protocol: %1\r\n") a =
      literal "Sec-WebSocket-Protocol: " ++ a ++ literal "\r\n" := rfl

/-- The extensions line: `arg` puts the argument in place of `%1`. -/
theorem arg_extensions_line (a : QString) :
    arg (literal "Sec-WebSocket-Extensions: %1\r\n") a =
      literal "Sec-WebSocket-Extensions: " ++ a ++ literal "\r\n" := rfl

/-- The origin line: `arg` puts the argument in place of `%1`. -/
theorem arg_origin_line (a : QString) :
    arg (literal "Sec-WebSocket-Origin: %1\r\n") a =
      literal "Sec-WebSocket-Origin: " ++ a ++ literal "\r\n" := rfl

/-- C6: for an accept token without a zero byte (every base64 token is one), any protocol and
any extensions, `composeOpeningHandshakeResponseV6` returns the status line, `Upgrade:
websocket`, `Connection: Upgrade`, `Sec-WebSocket-Accept: <accept>`, the protocol line only when
the protocol is non-empty, the extensions line only when the extensions are non-empty, and the
blank line; `composeOpeningHandshakeResponseV4` returns the same text with the one line
`Sec-WebSocket-Nonce: <nonce>` right after the accept line, where `<nonce>` is the Latin-1 text
of the nonce, which is the whole nonce when it has no zero byte. -/
theorem composeOpeningHandshakeResponseV6_template (accept nonce : QByteArray)
    (protocol extensions : QString) (hAccept : ∀ b ∈ accept, b ≠ 0) :
    composeOpeningHandshakeResponseV6 accept protocol extensions =
        literal "HTTP/1.1 101 WebSocket Protocol Handshake\r\n" ++
          literal "Upgrade: websocket\r\n" ++
          literal "Connection: Upgrade\r\n" ++
          (literal "Sec-WebSocket-Accept: " ++ accept ++ literal "\r\n") ++
          (if protocol = [] then []
           else literal "Sec-WebSocket-Protocol: " ++ protocol ++ literal "\r\n") ++
          (if extensions = [] then []
           else literal "Sec-WebSocket-Extensions: " ++ extensions ++ literal "\r\n") ++
          literal "\r\n" ∧
      composeOpeningHandshakeResponseV4 accept nonce protocol extensions =
        literal "HTTP/1.1 101 WebSocket Protocol Handshake\r\n" ++
          literal "Upgrade: websocket\r\n" ++
          literal "Connection: Upgrade\r\n" ++
          (literal "Sec-WebSocket-Accept: " ++ accept ++ literal "\r\n") ++
          (literal "Sec-WebSocket-Nonce: " ++ QLatin1String nonce ++ literal "\r\n") ++
          (if protocol = [] then []
           else literal "Sec-WebSocket-Protocol: " ++ protocol ++ literal "\r\n") ++
          (if extensions = [] then []
           else literal "Sec-WebSocket-Extensions: " ++ extensions ++ literal "\r\n") ++
          literal "\r\n" ∧
      ((∀ b ∈ nonce, b ≠ 0) → QLatin1String nonce = nonce) := by
  refine ⟨?_, ?_, QLatin1String_eq_self nonce⟩
  · unfold composeOpeningHandshakeResponseV6
    simp only [arg_accept_line, arg_protocol_line, arg_extensions_line,
      QLatin1String_eq_self accept hAccept]
    by_cases hp : protocol = [] <;> by_cases he : extensions = [] <;>
      simp [hp, he, List.isEmpty_iff]
  · unfold composeOpeningHandshakeResponseV4
    simp only [arg_accept_line, arg_nonce_line, arg_protocol_line, arg_extensions_line,
      QLatin1String_eq_self accept hAccept]
    by_cases hp : protocol = [] <;> by_cases he : extensions = [] <;>
      simp [hp, he, List.isEmpty_iff]

/-- Witness of `composeOpeningHandshakeResponseV6_template`: the accept token of RFC 6455's
sample handshake, the protocol `chat`, no extensions, the nonce `bm9uY2U=`. -/
theorem composeOpeningHandshakeResponseV6_template_witness :
    (∀ b ∈ literal "s3pPLMBiTxaQ9kYGzzhZRbK+xOo=", b ≠ 0) ∧
      composeOpeningHandshakeResponseV6 (literal "s3pPLMBiTxaQ9kYGzzhZRbK+xOo=")
          (literal "chat") [] =
        literal ("HTTP/1.1 101 WebSocket Protocol Handshake\r\nUpgrade: websocket\r\n" ++
          "Connection: Upgrade\r\nSec-WebSocket-Accept: s3pPLMBiTxaQ9kYGzzhZRbK+xOo=\r\n" ++
          "Sec-WebSocket-Protocol: chat\r\n\r\n") ∧
      composeOpeningHandshakeResponseV4 (literal "s3pPLMBiTxaQ9kYGzzhZRbK+xOo=")
          (literal "bm9uY2U=") (literal "chat") [] =
        literal ("HTTP/1.1 101 WebSocket Protocol Handshake\r\nUpgrade: websocket\r\n" ++
          "Connection: Upgrade\r\nSec-WebSocket-Accept: s3pPLMBiTxaQ9kYGzzhZRbK+xOo=\r\n" ++
          "Sec-WebSocket-Nonce: bm9uY2U=\r\nSec-WebSocket-Protocol: chat\r\n\r\n") ∧
      QLatin1String (literal "bm9uY2U=") = literal "bm9uY2U=" :=
  have h : ∀ b ∈ literal "s3pPLMBiTxaQ9kYGzzhZRbK+xOo=", b ≠ 0 := by decide
  have t := composeOpeningHandshakeResponseV6_template (literal "s3pPLMBiTxaQ9kYGzzhZRbK+xOo=")
    (literal "bm9uY2U=") (literal "chat") [] h
  ⟨h, t.1.trans rfl, t.2.1.trans rfl, t.2.2 (by decide)⟩

/-! ## The invalid-handshake path -/

/-- C1 (as stated, refuted): for a handshake that was read to its end and that `isValid()`
rejects, the response written lists the versions 13, 8, 7, 6; version 4 is not in the list. -/
theorem dataReceived_invalid_omits_v4 :
    (dataReceived asciiExternals ⟨[], 30⟩ (some 1) true
        { emptyHandshake with readStarted := true, complete := true }).socketOps =
        [.write (literal "HTTP/1.1 400 Bad Request\r\nSec-WebSocket-Version: 13, 8, 7, 6\r\n"),
          .flush, .close] ∧
      (dataReceived asciiExternals ⟨[], 30⟩ (some 1) true
        { emptyHandshake with readStarted := true, complete := true }).socketOps ≠
        [.write (literal "HTTP/1.1 400 Bad Request\r\nSec-WebSocket-Version: 13, 8, 7, 6, 4\r\n"),
          .flush, .close] := by
  decide

/-- C1 (amended): whenever `dataReceived` takes the invalid-handshake path, that is when `read`
fails, when a started, unfinished request is marked not valid, or when a finished request fails
`isValid()`, it writes the UTF-8 bytes of the bad-request response whose `Sec-WebSocket-Version`
header lists exactly the versions 13, 8, 7, 6, in that descending order, then flushes and closes
the socket; nothing is queued. -/
theorem dataReceived_invalid_lists_versions (ext : Externals)
    (server : QWebSocketServer QWebSocket) (tcpSocket : Nat) (readResult : Bool)
    (handshake : QWsHandshake)
    (h : readResult = false ∨
      (readResult = true ∧ handshake.readStarted = true ∧ handshake.complete = false ∧
        handshake.httpRequestValid = false) ∨
      (readResult = true ∧ handshake.readStarted = true ∧ handshake.complete = true ∧
        ext.isValid handshake = false)) :
    (dataReceived ext server (some tcpSocket) readResult handshake).socketOps =
        [.write (ext.toUtf8
          (literal "HTTP/1.1 400 Bad Request\r\nSec-WebSocket-Version: 13, 8, 7, 6\r\n")),
          .flush, .close] ∧
      (dataReceived ext server (some tcpSocket) readResult handshake).server = server := by
  have hresp : composeBadRequestResponse [WS_V6, WS_V7, WS_V8, WS_V13] =
      literal "HTTP/1.1 400 Bad Request\r\nSec-WebSocket-Version: 13, 8, 7, 6\r\n" := by decide
  rcases h with h | ⟨h1, h2, h3, h4⟩ | ⟨h1, h2, h3, h4⟩
  · simp [dataReceived, showErrorAndClose, hresp, h]
  · simp [dataReceived, showErrorAndClose, hresp, h1, h2, h3, h4]
  · simp [dataReceived, showErrorAndClose, hresp, h1, h2, h3, h4]

/-- Witness of `dataReceived_invalid_lists_versions`: a finished request that `isValid()`
rejects. -/
theorem dataReceived_invalid_lists_versions_witness :
    (asciiExternals.isValid { emptyHandshake with readStarted := true, complete := true } =
        false) ∧
      (dataReceived asciiExternals ⟨[], 30⟩ (some 1) true
        { emptyHandshake with readStarted := true, complete := true }).socketOps =
        [.write (asciiExternals.toUtf8
          (literal "HTTP/1.1 400 Bad Request\r\nSec-WebSocket-Version: 13, 8, 7, 6\r\n")),
          .flush, .close] :=
  ⟨by decide,
    (dataReceived_invalid_lists_versions asciiExternals ⟨[], 30⟩ 1 true
      { emptyHandshake with readStarted := true, complete := true }
      (Or.inr (Or.inr ⟨rfl, rfl, rfl, by decide⟩))).1⟩

/-- C3 (the code at the failing input): the bad-request response that `showErrorAndClose` sends
ends with the line end of its version header and not with a blank line, and no list of versions
gives a response that ends with a blank line; for the empty list the response is the status
line alone. The three handshake composers end their header block with `literal "\r\n"` after
the last header line, this composer does not. -/
theorem composeBadRequestResponse_no_blank_line (versions : List EWebsocketVersion) :
    composeBadRequestResponse [WS_V6, WS_V7, WS_V8, WS_V13] =
        literal "HTTP/1.1 400 Bad Request\r\nSec-WebSocket-Version: 13, 8, 7, 6\r\n" ∧
      composeBadRequestResponse [] = literal "HTTP/1.1 400 Bad Request\r\n" ∧
      ¬ (literal "\r\n\r\n" <:+ composeBadRequestResponse versions) :=
  ⟨by decide, by decide, composeBadRequestResponse_never_blank_line versions⟩

/-! ## The Hixie76 response -/

/-- C2 (the code at the failing input): for a 16-byte accept token whose third byte is zero,
the bytes written for the Hixie76 handshake end with the blank line followed by the first two
accept bytes only; they do not end with the blank line followed by the 16 accept bytes. The
same bytes are what `dataReceived` writes for a valid version-0 handshake whose accept token is
this one. -/
theorem composeOpeningHandshakeResponseV0_truncates_accept :
    acceptWithZeroByte.length = 16 ∧
      toLatin1 (composeOpeningHandshakeResponseV0 foldCaseAscii acceptWithZeroByte
          (literal "http://example.com") (literal "example.com") (literal "8080")
          (literal "/chat") []) =
        literal ("HTTP/1.1 101 WebSocket Protocol Handshake\r\nUpgrade: Websocket\r\n" ++
          "Connection: Upgrade\r\nSec-WebSocket-Origin: http://example.com\r\n" ++
          "Sec-WebSocket-Location: ws://example.com:8080/chat\r\n\r\n") ++ [0x38, 0x6e] ∧
      ¬ (literal "\r\n\r\n" ++ acceptWithZeroByte <:+
        toLatin1 (composeOpeningHandshakeResponseV0 foldCaseAscii acceptWithZeroByte
          (literal "http://example.com") (literal "example.com") (literal "8080")
          (literal "/chat") [])) ∧
      (dataReceived asciiExternals ⟨[], 30⟩ (some 1) true
        { emptyHandshake with
          readStarted := true, complete := true, httpRequestValid := true, version := WS_V0,
          origin := literal "http://example.com", hostAddress := literal "example.com",
          hostPort := literal "8080", resourceName := literal "/chat" }).socketOps =
        [.write (literal ("HTTP/1.1 101 WebSocket Protocol Handshake\r\nUpgrade: Websocket\r\n" ++
          "Connection: Upgrade\r\nSec-WebSocket-Origin: http://example.com\r\n" ++
          "Sec-WebSocket-Location: ws://example.com:8080/chat\r\n\r\n") ++ [0x38, 0x6e]),
          .flush] := by
  refine ⟨rfl, rfl, ?_, rfl⟩
  decide

/-- C7 (the code at the failing input): with the host address `a%2b.example`, the port `80`
and the resource `/chat`, the location header is `ws://a:80b.example:80/chat`: the second
`arg` call of the chain takes the `%2` inside the host address for a place marker and puts the
port there too. The claim's text would have `ws://a%2b.example:80/chat`. -/
theorem composeOpeningHandshakeResponseV0_rescans_hostAddress :
    composeOpeningHandshakeResponseV0 foldCaseAscii [] (literal "http://example.com")
          (literal "a%2b.example") (literal "80") (literal "/chat") [] =
        literal ("HTTP/1.1 101 WebSocket Protocol Handshake\r\nUpgrade: Websocket\r\n" ++
          "Connection: Upgrade\r\nSec-WebSocket-Origin: http://example.com\r\n" ++
          "Sec-WebSocket-Location: ws://a:80b.example:80/chat\r\n\r\n") ∧
      composeOpeningHandshakeResponseV0 foldCaseAscii [] (literal "http://example.com")
          (literal "a%2b.example") (literal "80") (literal "/chat") [] ≠
        literal ("HTTP/1.1 101 WebSocket Protocol Handshake\r\nUpgrade: Websocket\r\n" ++
          "Connection: Upgrade\r\nSec-WebSocket-Origin: http://example.com\r\n" ++
          "Sec-WebSocket-Location: ws://a%2b.example:80/chat\r\n\r\n") := by
  refine ⟨rfl, ?_⟩
  decide

/-! ## `arg` and the location header -/

/-- A code unit other than `%` is scanned as ordinary text. -/
theorem findArgEscapes_cons_of_ne (c : QChar) (s : QString) (hc : c ≠ 37) :
    findArgEscapes (c :: s) = .text c :: findArgEscapes s := by
  rw [findArgEscapes.eq_def]
  simp [hc]

/-- A prefix without `%` is scanned as ordinary text, and the scan of what follows does not
depend on it. -/
theorem findArgEscapes_append_of_no_percent (p s : QString) (hp : ∀ c ∈ p, c ≠ 37) :
    findArgEscapes (p ++ s) = p.map ArgPiece.text ++ findArgEscapes s := by
  induction p with
  | nil => rfl
  | cons c p ih =>
    have hc : c ≠ 37 := hp c (List.mem_cons_self c p)
    rw [List.cons_append, findArgEscapes_cons_of_ne c (p ++ s) hc,
      ih (fun d hd => hp d (List.mem_cons_of_mem c hd))]
    rfl

/-- Ordinary text in front does not change the lowest place-marker number. -/
theorem minEscape_text_append (p : QString) (ps : List ArgPiece) :
    minEscape (p.map ArgPiece.text ++ ps) = minEscape ps := by
  induction p with
  | nil => rfl
  | cons c p ih => simpa [minEscape] using ih

/-- Ordinary text in front is copied as it stands. -/
theorem replaceArgEscapes_text_append (m : Nat) (a p : QString) (ps : List ArgPiece) :
    replaceArgEscapes m a (p.map ArgPiece.text ++ ps) = p ++ replaceArgEscapes m a ps := by
  induction p with
  | nil => rfl
  | cons c p ih => simp [replaceArgEscapes, ih]

/-- `arg` leaves a prefix without `%` in place and works on the rest of the string. -/
theorem arg_append_of_no_percent (p s a : QString) (hp : ∀ c ∈ p, c ≠ 37) :
    arg (p ++ s) a = p ++ arg s a := by
  unfold arg
  rw [findArgEscapes_append_of_no_percent p s hp, minEscape_text_append]
  cases minEscape (findArgEscapes s) with
  | none => rfl
  | some m => simp [replaceArgEscapes_text_append]

/-- The case-insensitive `startsWith` holds exactly when the string is at least as long as the
prefix and its first code units fold to the same code units as the prefix. -/
theorem startsWith_iff (f : QChar → QChar) (s p : QString) :
    startsWith f s p = true ↔ p.length ≤ s.length ∧ (s.take p.length).map f = p.map f := by
  induction p generalizing s with
  | nil => simp [startsWith]
  | cons d p ih =>
    cases s with
    | nil => simp [startsWith]
    | cons c s =>
      simp only [startsWith, Bool.and_eq_true, beq_iff_eq, ih, List.length_cons,
        Nat.add_le_add_iff_right, List.take_succ_cons, List.map_cons, List.cons.injEq]
      tauto
/-- The chain of three `arg` calls that builds the location line, for a host address that
starts with a text `w` without `%`: the line starts with the header name and `w`; the later
calls of the chain work on what follows. -/
theorem location_chain (w t hostPort resourceName : QString) (hw : ∀ c ∈ w, c ≠ 37) :
    arg (arg (arg (literal "Sec-WebSocket-Location: %1%2%3\r\n") (w ++ t)) hostPort)
        resourceName =
      literal "Sec-WebSocket-Location: " ++ w ++
        arg (arg (t ++ literal "%2%3\r\n") hostPort) resourceName := by
  have hchain : arg (literal "Sec-WebSocket-Location: %1%2%3\r\n") (w ++ t) =
      (literal "Sec-WebSocket-Location: " ++ w) ++ (t ++ literal "%2%3\r\n") := by
    have h0 : ∀ a : QString, arg (literal "Sec-WebSocket-Location: %1%2%3\r\n") a =
        literal "Sec-WebSocket-Location: " ++ a ++ literal "%2%3\r\n" := fun _ => rfl
    rw [h0]
    simp
  have hp : ∀ c ∈ literal "Sec-WebSocket-Location: " ++ w, c ≠ 37 := by
    intro c hc
    rcases List.mem_append.mp hc with h | h
    · have hlit : ∀ c ∈ literal "Sec-WebSocket-Location: ", c ≠ 37 := by decide
      exact hlit c h
    · exact hw c h
  rw [hchain, arg_append_of_no_percent _ _ _ hp, arg_append_of_no_percent _ _ _ hp]

/-- C8 (as stated, refuted): for the host address `WS://example.com` the location header is
`WS://example.com:8080/chat`; its value begins with `WS://`, not with `ws://`. -/
theorem composeOpeningHandshakeResponseV0_keeps_uppercase_scheme :
    composeOpeningHandshakeResponseV0 foldCaseAscii [] (literal "http://example.com")
          (literal "WS://example.com") (literal "8080") (literal "/chat") [] =
        literal ("HTTP/1.1 101 WebSocket Protocol Handshake\r\nUpgrade: Websocket\r\n" ++
          "Connection: Upgrade\r\nSec-WebSocket-Origin: http://example.com\r\n" ++
          "Sec-WebSocket-Location: WS://example.com:8080/chat\r\n\r\n") ∧
      ¬ (literal ("HTTP/1.1 101 WebSocket Protocol Handshake\r\nUpgrade: Websocket\r\n" ++
          "Connection: Upgrade\r\nSec-WebSocket-Origin: http://example.com\r\n" ++
          "Sec-WebSocket-Location: ws://") <+:
        composeOpeningHandshakeResponseV0 foldCaseAscii [] (literal "http://example.com")
          (literal "WS://example.com") (literal "8080") (literal "/chat") []) := by
  refine ⟨rfl, ?_⟩
  decide

/-- C8 (amended): provided case folding does not identify `%` with any of `w`, `s`, `:`, `/`
(Qt's folding maps each of the five to itself), the value of the `Sec-WebSocket-Location` header
of the Hixie76 response begins with five code units that are `ws://` up to letter case: they
are exactly `ws://`, prepended by the composer, when the host address does not already start
with `ws://` in some letter case, and they are the first five code units of the host address
itself, in the case they were given in, when it does. -/
theorem composeOpeningHandshakeResponseV0_location_scheme (foldCase : QChar → QChar)
    (hfold : ∀ c ∈ literal "ws://", foldCase c ≠ foldCase 37) (accept : QByteArray)
    (origin hostAddress hostPort resourceName protocol : QString) :
    ∃ scheme rest : QString,
      composeOpeningHandshakeResponseV0 foldCase accept origin hostAddress hostPort resourceName
          protocol =
        literal "HTTP/1.1 101 WebSocket Protocol Handshake\r\n" ++
          literal "Upgrade: Websocket\r\n" ++
          literal "Connection: Upgrade\r\n" ++
          (literal "Sec-WebSocket-Origin: " ++ origin ++ literal "\r\n") ++
          (literal "Sec-WebSocket-Location: " ++ scheme ++ rest) ∧
      scheme.length = 5 ∧
      scheme.map foldCase = (literal "ws://").map foldCase ∧
      (startsWith foldCase hostAddress (literal "ws://") = false → scheme = literal "ws://") ∧
      (startsWith foldCase hostAddress (literal "ws://") = true →
        scheme = hostAddress.take 5) := by
  have hno : ∀ w : QString, w.map foldCase = (literal "ws://").map foldCase →
      ∀ c ∈ w, c ≠ 37 := by
    intro w hw c hc h37
    have hmem : foldCase c ∈ (literal "ws://").map foldCase := by
      rw [← hw]
      exact List.mem_map_of_mem foldCase hc
    obtain ⟨d, hd, hdc⟩ := List.mem_map.mp hmem
    exact hfold d hd (by rw [hdc, h37])
  cases hsw : startsWith foldCase hostAddress (literal "ws://") with
  | false =>
    refine ⟨literal "ws://",
      arg (arg (hostAddress ++ literal "%2%3\r\n")
        (if !hostPort.isEmpty then 58 :: hostPort else hostPort)) resourceName ++
        (if !protocol.isEmpty then literal "Sec-WebSocket-Protocol: " ++ protocol ++ literal "\r\n"
         else []) ++ literal "\r\n" ++ QLatin1String accept, ?_, rfl, rfl, fun _ => rfl, ?_⟩
    · unfold composeOpeningHandshakeResponseV0
      simp only [hsw, arg_origin_line, arg_protocol_line, Bool.not_false, if_true,
        location_chain (literal "ws://") hostAddress _ resourceName (hno _ rfl)]
      by_cases hp : protocol = [] <;> simp [hp]
    · intro h
      cases h
  | true =>
    obtain ⟨hlen, hmap⟩ := (startsWith_iff foldCase hostAddress (literal "ws://")).mp hsw
    have hl5 : (literal "ws://").length = 5 := rfl
    rw [hl5] at hlen hmap
    refine ⟨hostAddress.take 5,
      arg (arg (hostAddress.drop 5 ++ literal "%2%3\r\n")
        (if !hostPort.isEmpty then 58 :: hostPort else hostPort)) resourceName ++
        (if !protocol.isEmpty then literal "Sec-WebSocket-Protocol: " ++ protocol ++ literal "\r\n"
         else []) ++ literal "\r\n" ++ QLatin1String accept, ?_, ?_, hmap, ?_, fun _ => rfl⟩
    · unfold composeOpeningHandshakeResponseV0
      have hsplit : hostAddress = hostAddress.take 5 ++ hostAddress.drop 5 :=
        (List.take_append_drop 5 hostAddress).symm
      have hloc : ∀ port : QString,
          arg (arg (arg (literal "Sec-WebSocket-Location: %1%2%3\r\n") hostAddress) port)
              resourceName =
            literal "Sec-WebSocket-Location: " ++ hostAddress.take 5 ++
              arg (arg (hostAddress.drop 5 ++ literal "%2%3\r\n") port) resourceName := by
        intro port
        have h := location_chain (hostAddress.take 5) (hostAddress.drop 5) port resourceName
          (hno _ hmap)
        rwa [← hsplit] at h
      simp only [hsw, arg_origin_line, arg_protocol_line, Bool.not_true]
      by_cases hp : protocol = [] <;> simp [hp, hloc]
    · rw [List.length_take]
      omega
    · intro h
      cases h

/-- Witness of `composeOpeningHandshakeResponseV0_location_scheme`: ASCII case folding and the
host address `WS://example.com`. -/
theorem composeOpeningHandshakeResponseV0_location_scheme_witness :
    (∀ c ∈ literal "ws://", foldCaseAscii c ≠ foldCaseAscii 37) ∧
      ∃ scheme rest : QString,
        composeOpeningHandshakeResponseV0 foldCaseAscii [] (literal "http://example.com")
            (literal "WS://example.com") (literal "8080") (literal "/chat") [] =
          literal "HTTP/1.1 101 WebSocket Protocol Handshake\r\n" ++
            literal "Upgrade: Websocket\r\n" ++
            literal "Connection: Upgrade\r\n" ++
            (literal "Sec-WebSocket-Origin: " ++ literal "http://example.com" ++ literal "\r\n") ++
            (literal "Sec-WebSocket-Location: " ++ scheme ++ rest) ∧
        scheme.length = 5 ∧
        scheme.map foldCaseAscii = (literal "ws://").map foldCaseAscii ∧
        (startsWith foldCaseAscii (literal "WS://example.com") (literal "ws://") = false →
          scheme = literal "ws://") ∧
        (startsWith foldCaseAscii (literal "WS://example.com") (literal "ws://") = true →
          scheme = (literal "WS://example.com").take 5) :=
  ⟨by decide,
    composeOpeningHandshakeResponseV0_location_scheme foldCaseAscii (by decide) []
      (literal "http://example.com") (literal "WS://example.com") (literal "8080")
      (literal "/chat") []⟩

/-! ## More on `arg`: line ends and the origin of the code units -/

/-- A `%` followed by a code unit that is neither `L` nor a digit is ordinary text; the scan
resumes at that code unit. -/
theorem findArgEscapes_percent_other (d : QChar) (s : QString) (h76 : d ≠ 76)
    (hd : ¬ isDigit d = true) :
    findArgEscapes (37 :: d :: s) = .text 37 :: findArgEscapes (d :: s) := by
  rw [findArgEscapes.eq_def]
  simp [h76, hd]

/-- A `%` and one digit, followed by a code unit that is not a digit, form a place marker. -/
theorem findArgEscapes_percent_digit (d g : QChar) (s : QString) (h76 : d ≠ 76)
    (hd : isDigit d = true) (hg : ¬ isDigit g = true) :
    findArgEscapes (37 :: d :: g :: s) = .marker (d - 48) [37, d] :: findArgEscapes (g :: s) := by
  rw [findArgEscapes.eq_def]
  simp [h76, hd, hg]

/-- A `%` and two digits form a place marker. -/
theorem findArgEscapes_percent_two_digits (d g : QChar) (s : QString) (h76 : d ≠ 76)
    (hd : isDigit d = true) (hg : isDigit g = true) :
    findArgEscapes (37 :: d :: g :: s) =
      .marker (10 * (d - 48) + (g - 48)) [37, d, g] :: findArgEscapes s := by
  rw [findArgEscapes.eq_def]
  simp [h76, hd, hg]

/-- A `%` and one digit at the end of the string form a place marker. -/
theorem findArgEscapes_percent_digit_end (d : QChar) (h76 : d ≠ 76) (hd : isDigit d = true) :
    findArgEscapes [37, d] = [.marker (d - 48) [37, d]] := by
  rw [findArgEscapes.eq_def]
  simp [h76, hd]

/-- The text `%L` followed by a code unit that is not a digit is ordinary text; the scan resumes
at that code unit. -/
theorem findArgEscapes_locale_other (e : QChar) (s : QString) (he : ¬ isDigit e = true) :
    findArgEscapes (37 :: 76 :: e :: s) = .text 37 :: .text 76 :: findArgEscapes (e :: s) := by
  rw [findArgEscapes.eq_def]
  simp [he]

/-- The text `%L` and one digit, followed by a code unit that is not a digit, form a place
marker. -/
theorem findArgEscapes_locale_digit (e g : QChar) (s : QString) (he : isDigit e = true)
    (hg : ¬ isDigit g = true) :
    findArgEscapes (37 :: 76 :: e :: g :: s) =
      .marker (e - 48) [37, 76, e] :: findArgEscapes (g :: s) := by
  rw [findArgEscapes.eq_def]
  simp [he, hg]

/-- The text `%L` and two digits form a place marker. -/
theorem findArgEscapes_locale_two_digits (e g : QChar) (s : QString) (he : isDigit e = true)
    (hg : isDigit g = true) :
    findArgEscapes (37 :: 76 :: e :: g :: s) =
      .marker (10 * (e - 48) + (g - 48)) [37, 76, e, g] :: findArgEscapes s := by
  rw [findArgEscapes.eq_def]
  simp [he, hg]

/-- The text `%L` and one digit at the end of the string form a place marker. -/
theorem findArgEscapes_locale_digit_end (e : QChar) (he : isDigit e = true) :
    findArgEscapes [37, 76, e] = [.marker (e - 48) [37, 76, e]] := by
  rw [findArgEscapes.eq_def]
  simp [he]

/-- A line end is ordinary text. -/
theorem findArgEscapes_crlf : findArgEscapes [13, 10] = [.text 13, .text 10] := rfl

/-- A line end after a string is scanned as ordinary text and does not change the scan of the
string: no place marker reaches into it. -/
theorem findArgEscapes_append_crlf (s : QString) :
    findArgEscapes (s ++ [13, 10]) = findArgEscapes s ++ [.text 13, .text 10] := by
  have h13 : ¬ isDigit 13 = true := by decide
  have h1376 : (13 : QChar) ≠ 76 := by decide
  induction s using findArgEscapes.induct with
  | case1 => rfl
  | case2 => rfl
  | case3 => rfl
  | case4 f hf =>
    show findArgEscapes (37 :: 76 :: f :: 13 :: [10]) = _
    rw [findArgEscapes_locale_digit f 13 [10] hf h13, findArgEscapes_locale_digit_end f hf]
    rfl
  | case5 f hf g rest hg ih =>
    show findArgEscapes (37 :: 76 :: f :: g :: (rest ++ [13, 10])) = _
    rw [findArgEscapes_locale_two_digits f g _ hf hg, findArgEscapes_locale_two_digits f g _ hf hg,
      ih]
    rfl
  | case6 f hf g rest hg ih =>
    show findArgEscapes (37 :: 76 :: f :: g :: (rest ++ [13, 10])) = _
    rw [findArgEscapes_locale_digit f g _ hf hg, findArgEscapes_locale_digit f g _ hf hg]
    rw [List.cons_append] at ih
    rw [ih]
    rfl
  | case7 f rest hf ih =>
    show findArgEscapes (37 :: 76 :: f :: (rest ++ [13, 10])) = _
    rw [findArgEscapes_locale_other f _ hf, findArgEscapes_locale_other f _ hf]
    rw [List.cons_append] at ih
    rw [ih]
    rfl
  | case8 f h76 hf =>
    show findArgEscapes (37 :: f :: 13 :: [10]) = _
    rw [findArgEscapes_percent_digit f 13 [10] h76 hf h13, findArgEscapes_percent_digit_end f h76 hf]
    rfl
  | case9 f h76 hf g rest hg ih =>
    show findArgEscapes (37 :: f :: g :: (rest ++ [13, 10])) = _
    rw [findArgEscapes_percent_two_digits f g _ h76 hf hg,
      findArgEscapes_percent_two_digits f g _ h76 hf hg, ih]
    rfl
  | case10 f h76 hf g rest hg ih =>
    show findArgEscapes (37 :: f :: g :: (rest ++ [13, 10])) = _
    rw [findArgEscapes_percent_digit f g _ h76 hf hg, findArgEscapes_percent_digit f g _ h76 hf hg]
    rw [List.cons_append] at ih
    rw [ih]
    rfl
  | case11 f rest h76 hf ih =>
    show findArgEscapes (37 :: f :: (rest ++ [13, 10])) = _
    rw [findArgEscapes_percent_other f _ h76 hf, findArgEscapes_percent_other f _ h76 hf]
    rw [List.cons_append] at ih
    rw [ih]
    rfl
  | case12 c rest hc ih =>
    show findArgEscapes (c :: (rest ++ [13, 10])) = _
    rw [findArgEscapes_cons_of_ne c _ hc, findArgEscapes_cons_of_ne c _ hc, ih]
    rfl
/-- Ordinary text at the end does not change the lowest place-marker number. -/
theorem minEscape_append_text (ps : List ArgPiece) (q : QString) :
    minEscape (ps ++ q.map ArgPiece.text) = minEscape ps := by
  induction ps with
  | nil =>
    induction q with
    | nil => rfl
    | cons c q ih => simpa [minEscape] using ih
  | cons p ps ih =>
    cases p with
    | text c => simpa [minEscape] using ih
    | marker n raw => simp [minEscape, ih]

/-- Ordinary text at the end is copied as it stands. -/
theorem replaceArgEscapes_append_text (m : Nat) (a : QString) (ps : List ArgPiece)
    (q : QString) :
    replaceArgEscapes m a (ps ++ q.map ArgPiece.text) = replaceArgEscapes m a ps ++ q := by
  induction ps with
  | nil =>
    induction q with
    | nil => rfl
    | cons c q ih => simpa [replaceArgEscapes] using ih
  | cons p ps ih =>
    cases p with
    | text c => simp [replaceArgEscapes, ih]
    | marker n raw => simp [replaceArgEscapes, ih]

/-- The call `arg` leaves the line end of a string in place. -/
theorem arg_append_crlf (s a : QString) : arg (s ++ [13, 10]) a = arg s a ++ [13, 10] := by
  unfold arg
  have h := findArgEscapes_append_crlf s
  have hq : ([ArgPiece.text 13, ArgPiece.text 10] : List ArgPiece) =
      ([13, 10] : QString).map ArgPiece.text := rfl
  rw [h, hq, minEscape_append_text]
  cases minEscape (findArgEscapes s) with
  | none => rfl
  | some m => exact replaceArgEscapes_append_text m a (findArgEscapes s) [13, 10]

/-- The scan loses nothing: the pieces, put together again, are the string. -/
theorem rawText_findArgEscapes (s : QString) : rawText (findArgEscapes s) = s := by
  induction s using findArgEscapes.induct with
  | case1 => rfl
  | case2 => rfl
  | case3 => rfl
  | case4 f hf => rw [findArgEscapes_locale_digit_end f hf]; rfl
  | case5 f hf g rest hg ih =>
    rw [findArgEscapes_locale_two_digits f g _ hf hg]
    simp [rawText, ih]
  | case6 f hf g rest hg ih =>
    rw [findArgEscapes_locale_digit f g _ hf hg]
    simp [rawText, ih]
  | case7 f rest hf ih =>
    rw [findArgEscapes_locale_other f _ hf]
    simp [rawText, ih]
  | case8 f h76 hf => rw [findArgEscapes_percent_digit_end f h76 hf]; rfl
  | case9 f h76 hf g rest hg ih =>
    rw [findArgEscapes_percent_two_digits f g _ h76 hf hg]
    simp [rawText, ih]
  | case10 f h76 hf g rest hg ih =>
    rw [findArgEscapes_percent_digit f g _ h76 hf hg]
    simp [rawText, ih]
  | case11 f rest h76 hf ih =>
    rw [findArgEscapes_percent_other f _ h76 hf]
    simp [rawText, ih]
  | case12 c rest hc ih =>
    rw [findArgEscapes_cons_of_ne c _ hc]
    simp [rawText, ih]

/-- Every code unit of the copy comes from the argument or from the pieces. -/
theorem mem_replaceArgEscapes (m : Nat) (a : QString) (ps : List ArgPiece) (c : QChar)
    (h : c ∈ replaceArgEscapes m a ps) : c ∈ a ∨ c ∈ rawText ps := by
  induction ps with
  | nil => simp [replaceArgEscapes] at h
  | cons p ps ih =>
    cases p with
    | text d =>
      simp only [replaceArgEscapes, List.mem_cons] at h
      rcases h with h | h
      · exact Or.inr (by simp [rawText, h])
      · rcases ih h with h | h
        · exact Or.inl h
        · exact Or.inr (by simp [rawText, h])
    | marker n raw =>
      simp only [replaceArgEscapes, List.mem_append] at h
      rcases h with h | h
      · by_cases hn : n = m
        · simp only [hn, if_true] at h
          exact Or.inl h
        · simp only [hn, if_false] at h
          exact Or.inr (by simp [rawText, h])
      · rcases ih h with h | h
        · exact Or.inl h
        · exact Or.inr (by simp [rawText, h])

/-- Every code unit of `s.arg(a)` comes from `s` or from `a`. -/
theorem mem_arg (s a : QString) (c : QChar) (h : c ∈ arg s a) : c ∈ s ∨ c ∈ a := by
  unfold arg at h
  cases hm : minEscape (findArgEscapes s) with
  | none =>
    rw [hm] at h
    exact Or.inl h
  | some m =>
    rw [hm] at h
    rcases mem_replaceArgEscapes m a _ c h with h | h
    · exact Or.inr h
    · rw [rawText_findArgEscapes] at h
      exact Or.inl h

/-! ## The shape of the handshake responses -/

/-- The location line for any three arguments: the header name, a value, the line end. Every
code unit of the value comes from one of the arguments or from the place markers of the
template; the chain of `arg` calls never touches the header name or the line end. -/
theorem location_line_shape (hostAddress hostPort resourceName : QString) :
    ∃ location : QString,
      arg (arg (arg (literal "Sec-WebSocket-Location: %1%2%3\r\n") hostAddress) hostPort)
          resourceName =
        literal "Sec-WebSocket-Location: " ++ location ++ literal "\r\n" ∧
      ∀ c ∈ location,
        c ∈ hostAddress ∨ c ∈ hostPort ∨ c ∈ resourceName ∨ c ∈ literal "%1%2%3" := by
  have hP : ∀ c ∈ literal "Sec-WebSocket-Location: ", c ≠ 37 := by decide
  have hstep : ∀ x a : QString,
      arg (literal "Sec-WebSocket-Location: " ++ (x ++ [13, 10])) a =
        literal "Sec-WebSocket-Location: " ++ (arg x a ++ [13, 10]) := by
    intro x a
    rw [arg_append_of_no_percent _ _ _ hP, arg_append_crlf]
  have h0 : literal "Sec-WebSocket-Location: %1%2%3\r\n" =
      literal "Sec-WebSocket-Location: " ++ (literal "%1%2%3" ++ [13, 10]) := rfl
  refine ⟨arg (arg (arg (literal "%1%2%3") hostAddress) hostPort) resourceName, ?_, ?_⟩
  · rw [h0, hstep, hstep, hstep]
    have hcrlf : literal "\r\n" = [13, 10] := rfl
    rw [hcrlf, List.append_assoc]
  · intro c hc
    rcases mem_arg _ _ c hc with h | h
    · rcases mem_arg _ _ c h with h | h
      · rcases mem_arg _ _ c h with h | h
        · exact Or.inr (Or.inr (Or.inr h))
        · exact Or.inl h
      · exact Or.inr (Or.inl h)
    · exact Or.inr (Or.inr (Or.inl h))

/-- The Hixie76 response for every input: the status line, `Upgrade: Websocket`, `Connection:
Upgrade`, the origin line with the origin as given, a location line, the protocol line only
when the protocol is non-empty, the blank line, and the Latin-1 text of the accept token. The
code units of the location value come from the host address, the port, the resource name and
the code units of `ws://`, `:` and the place markers. -/
theorem composeOpeningHandshakeResponseV0_shape (foldCase : QChar → QChar)
    (accept : QByteArray) (origin hostAddress hostPort resourceName protocol : QString) :
    ∃ location : QString,
      composeOpeningHandshakeResponseV0 foldCase accept origin hostAddress hostPort resourceName
          protocol =
        literal "HTTP/1.1 101 WebSocket Protocol Handshake\r\n" ++
          literal "Upgrade: Websocket\r\n" ++
          literal "Connection: Upgrade\r\n" ++
          (literal "Sec-WebSocket-Origin: " ++ origin ++ literal "\r\n") ++
          (literal "Sec-WebSocket-Location: " ++ location ++ literal "\r\n") ++
          (if protocol = [] then []
           else literal "Sec-WebSocket-Protocol: " ++ protocol ++ literal "\r\n") ++
          literal "\r\n" ++
          QLatin1String accept ∧
      ∀ c ∈ location,
        c ∈ hostAddress ∨ c ∈ hostPort ∨ c ∈ resourceName ∨ c ∈ literal "ws://:%123" := by
  obtain ⟨location, hline, hmem⟩ := location_line_shape
    (if !startsWith foldCase hostAddress (literal "ws://") then literal "ws://" ++ hostAddress
      else hostAddress)
    (if !hostPort.isEmpty then 58 :: hostPort else hostPort) resourceName
  refine ⟨location, ?_, ?_⟩
  · unfold composeOpeningHandshakeResponseV0
    simp only [hline, arg_origin_line, arg_protocol_line]
    by_cases hp : protocol = [] <;> simp [hp]
  · intro c hc
    have h1 : ∀ d ∈ literal "ws://", d ∈ literal "ws://:%123" := by decide
    have h2 : (58 : QChar) ∈ literal "ws://:%123" := by decide
    have h3 : ∀ d ∈ literal "%1%2%3", d ∈ literal "ws://:%123" := by decide
    rcases hmem c hc with h | h | h | h
    · by_cases hs : startsWith foldCase hostAddress (literal "ws://") = true
      · simp only [hs, Bool.not_true, Bool.false_eq_true, if_false] at h
        exact Or.inl h
      · simp only [hs, Bool.not_eq_true] at h
        simp only [Bool.not_eq_true] at hs
        simp only [hs, Bool.not_false, if_true, List.mem_append] at h
        rcases h with h | h
        · exact Or.inr (Or.inr (Or.inr (h1 c h)))
        · exact Or.inl h
    · by_cases hp : hostPort = []
      · simp only [hp, List.isEmpty_nil, Bool.not_true, Bool.false_eq_true, if_false,
          List.not_mem_nil] at h
      · have hne : hostPort.isEmpty = false := by
          cases hostPort with
          | nil => exact absurd rfl hp
          | cons _ _ => rfl
        simp only [hne, Bool.not_false, if_true, List.mem_cons] at h
        rcases h with h | h
        · exact Or.inr (Or.inr (Or.inr (h ▸ h2)))
        · exact Or.inr (Or.inl h)
    · exact Or.inr (Or.inr (Or.inl h))
    · exact Or.inr (Or.inr (Or.inr (h3 c h)))
/-- The header block of the Hixie76 response ends with a blank line, and only the Latin-1 text
of the accept token follows it. -/
theorem composeOpeningHandshakeResponseV0_blank_line (foldCase : QChar → QChar)
    (accept : QByteArray) (origin hostAddress hostPort resourceName protocol : QString) :
    ∃ header : QString,
      composeOpeningHandshakeResponseV0 foldCase accept origin hostAddress hostPort resourceName
          protocol =
        header ++ literal "\r\n\r\n" ++ QLatin1String accept := by
  obtain ⟨location, hshape, _⟩ := composeOpeningHandshakeResponseV0_shape foldCase accept origin
    hostAddress hostPort resourceName protocol
  have h4 : literal "\r\n\r\n" = literal "\r\n" ++ literal "\r\n" := rfl
  by_cases hp : protocol = []
  · refine ⟨literal "HTTP/1.1 101 WebSocket Protocol Handshake\r\n" ++
      literal "Upgrade: Websocket\r\n" ++ literal "Connection: Upgrade\r\n" ++
      (literal "Sec-WebSocket-Origin: " ++ origin ++ literal "\r\n") ++
      (literal "Sec-WebSocket-Location: " ++ location), ?_⟩
    rw [hshape, h4]
    simp [hp]
  · refine ⟨literal "HTTP/1.1 101 WebSocket Protocol Handshake\r\n" ++
      literal "Upgrade: Websocket\r\n" ++ literal "Connection: Upgrade\r\n" ++
      (literal "Sec-WebSocket-Origin: " ++ origin ++ literal "\r\n") ++
      (literal "Sec-WebSocket-Location: " ++ location ++ literal "\r\n") ++
      (literal "Sec-WebSocket-Protocol: " ++ protocol), ?_⟩
    rw [hshape, h4]
    simp [hp]

/-- Code units below 256 are their own Latin-1 bytes. -/
theorem toLatin1_eq_self (ba : QByteArray) (h : ∀ b ∈ ba, b < 256) : toLatin1 ba = ba := by
  unfold toLatin1
  induction ba with
  | nil => rfl
  | cons b ba ih =>
    have hb : b < 256 := h b (List.mem_cons_self b ba)
    have hb2 : ¬ b > 255 := by omega
    simp only [List.map_cons, hb2, if_false]
    rw [ih (fun c hc => h c (List.mem_cons_of_mem b hc))]

/-- For an accept token without a zero byte, the bytes written for a Hixie76 handshake end with
the blank line followed by the accept bytes, unchanged and in order (bytes above 0x7F
included). -/
theorem composeOpeningHandshakeResponseV0_accept_bytes (foldCase : QChar → QChar)
    (accept : QByteArray) (origin hostAddress hostPort resourceName protocol : QString)
    (hzero : ∀ b ∈ accept, b ≠ 0) (hbyte : ∀ b ∈ accept, b < 256) :
    literal "\r\n\r\n" ++ accept <:+
      toLatin1 (composeOpeningHandshakeResponseV0 foldCase accept origin hostAddress hostPort
        resourceName protocol) := by
  obtain ⟨header, h⟩ := composeOpeningHandshakeResponseV0_blank_line foldCase accept origin
    hostAddress hostPort resourceName protocol
  rw [h, QLatin1String_eq_self accept hzero]
  refine ⟨toLatin1 header, ?_⟩
  have h4 : toLatin1 (literal "\r\n\r\n") = literal "\r\n\r\n" := rfl
  have hsplit : toLatin1 (header ++ literal "\r\n\r\n" ++ accept) =
      toLatin1 header ++ toLatin1 (literal "\r\n\r\n") ++ toLatin1 accept := by
    simp [toLatin1]
  rw [hsplit, h4, toLatin1_eq_self accept hbyte, List.append_assoc]

/-- The draft-6 response ends with a blank line, for every input. -/
theorem composeOpeningHandshakeResponseV6_blank_line (accept : QByteArray)
    (protocol extensions : QString) :
    literal "\r\n\r\n" <:+ composeOpeningHandshakeResponseV6 accept protocol extensions := by
  unfold composeOpeningHandshakeResponseV6
  simp only [arg_accept_line, arg_protocol_line, arg_extensions_line]
  have h4 : literal "\r\n\r\n" = literal "\r\n" ++ literal "\r\n" := rfl
  rw [h4]
  by_cases hp : protocol = [] <;> by_cases he : extensions = []
  · refine ⟨literal "HTTP/1.1 101 WebSocket Protocol Handshake\r\n" ++
      literal "Upgrade: websocket\r\n" ++ literal "Connection: Upgrade\r\n" ++
      (literal "Sec-WebSocket-Accept: " ++ QLatin1String accept), ?_⟩
    simp [hp, he]
  · refine ⟨literal "HTTP/1.1 101 WebSocket Protocol Handshake\r\n" ++
      literal "Upgrade: websocket\r\n" ++ literal "Connection: Upgrade\r\n" ++
      (literal "Sec-WebSocket-Accept: " ++ QLatin1String accept ++ literal "\r\n") ++
      (literal "Sec-WebSocket-Extensions: " ++ extensions), ?_⟩
    simp [hp, he]
  · refine ⟨literal "HTTP/1.1 101 WebSocket Protocol Handshake\r\n" ++
      literal "Upgrade: websocket\r\n" ++ literal "Connection: Upgrade\r\n" ++
      (literal "Sec-WebSocket-Accept: " ++ QLatin1String accept ++ literal "\r\n") ++
      (literal "Sec-WebSocket-Protocol: " ++ protocol), ?_⟩
    simp [hp, he]
  · refine ⟨literal "HTTP/1.1 101 WebSocket Protocol Handshake\r\n" ++
      literal "Upgrade: websocket\r\n" ++ literal "Connection: Upgrade\r\n" ++
      (literal "Sec-WebSocket-Accept: " ++ QLatin1String accept ++ literal "\r\n") ++
      (literal "Sec-WebSocket-Protocol: " ++ protocol ++ literal "\r\n") ++
      (literal "Sec-WebSocket-Extensions: " ++ extensions), ?_⟩
    simp [hp, he]

/-- The draft-4 response ends with a blank line, for every input. -/
theorem composeOpeningHandshakeResponseV4_blank_line (accept nonce : QByteArray)
    (protocol extensions : QString) :
    literal "\r\n\r\n" <:+ composeOpeningHandshakeResponseV4 accept nonce protocol extensions := by
  unfold composeOpeningHandshakeResponseV4
  simp only [arg_accept_line, arg_nonce_line, arg_protocol_line, arg_extensions_line]
  have h4 : literal "\r\n\r\n" = literal "\r\n" ++ literal "\r\n" := rfl
  rw [h4]
  by_cases hp : protocol = [] <;> by_cases he : extensions = []
  · refine ⟨literal "HTTP/1.1 101 WebSocket Protocol Handshake\r\n" ++
      literal "Upgrade: websocket\r\n" ++ literal "Connection: Upgrade\r\n" ++
      (literal "Sec-WebSocket-Accept: " ++ QLatin1String accept ++ literal "\r\n") ++
      (literal "Sec-WebSocket-Nonce: " ++ QLatin1String nonce), ?_⟩
    simp [hp, he]
  · refine ⟨literal "HTTP/1.1 101 WebSocket Protocol Handshake\r\n" ++
      literal "Upgrade: websocket\r\n" ++ literal "Connection: Upgrade\r\n" ++
      (literal "Sec-WebSocket-Accept: " ++ QLatin1String accept ++ literal "\r\n") ++
      (literal "Sec-WebSocket-Nonce: " ++ QLatin1String nonce ++ literal "\r\n") ++
      (literal "Sec-WebSocket-Extensions: " ++ extensions), ?_⟩
    simp [hp, he]
  · refine ⟨literal "HTTP/1.1 101 WebSocket Protocol Handshake\r\n" ++
      literal "Upgrade: websocket\r\n" ++ literal "Connection: Upgrade\r\n" ++
      (literal "Sec-WebSocket-Accept: " ++ QLatin1String accept ++ literal "\r\n") ++
      (literal "Sec-WebSocket-Nonce: " ++ QLatin1String nonce ++ literal "\r\n") ++
      (literal "Sec-WebSocket-Protocol: " ++ protocol), ?_⟩
    simp [hp, he]
  · refine ⟨literal "HTTP/1.1 101 WebSocket Protocol Handshake\r\n" ++
      literal "Upgrade: websocket\r\n" ++ literal "Connection: Upgrade\r\n" ++
      (literal "Sec-WebSocket-Accept: " ++ QLatin1String accept ++ literal "\r\n") ++
      (literal "Sec-WebSocket-Nonce: " ++ QLatin1String nonce ++ literal "\r\n") ++
      (literal "Sec-WebSocket-Protocol: " ++ protocol ++ literal "\r\n") ++
      (literal "Sec-WebSocket-Extensions: " ++ extensions), ?_⟩
    simp [hp, he]

/-- With a host address and a port that hold no `%`, the chain of `arg` calls puts the three
arguments one after the other between the header name and the line end. -/
theorem location_verbatim (hostAddress hostPort resourceName : QString)
    (hA : ∀ c ∈ hostAddress, c ≠ 37) (hP : ∀ c ∈ hostPort, c ≠ 37) :
    arg (arg (arg (literal "Sec-WebSocket-Location: %1%2%3\r\n") hostAddress) hostPort)
        resourceName =
      literal "Sec-WebSocket-Location: " ++ hostAddress ++ hostPort ++ resourceName ++
        literal "\r\n" := by
  have hlit : ∀ c ∈ literal "Sec-WebSocket-Location: ", c ≠ 37 := by decide
  have h1 : ∀ a : QString, arg (literal "Sec-WebSocket-Location: %1%2%3\r\n") a =
      (literal "Sec-WebSocket-Location: " ++ a) ++ literal "%2%3\r\n" := fun _ => rfl
  have h2 : ∀ a : QString, arg (literal "%2%3\r\n") a = a ++ literal "%3\r\n" := fun _ => rfl
  have h3 : ∀ a : QString, arg (literal "%3\r\n") a = a ++ literal "\r\n" := fun _ => rfl
  have hp1 : ∀ c ∈ literal "Sec-WebSocket-Location: " ++ hostAddress, c ≠ 37 := by
    intro c hc
    rcases List.mem_append.mp hc with h | h
    · exact hlit c h
    · exact hA c h
  have hp2 : ∀ c ∈ literal "Sec-WebSocket-Location: " ++ hostAddress ++ hostPort, c ≠ 37 := by
    intro c hc
    rcases List.mem_append.mp hc with h | h
    · exact hp1 c h
    · exact hP c h
  rw [h1, arg_append_of_no_percent _ _ _ hp1, h2, ← List.append_assoc,
    arg_append_of_no_percent _ _ _ hp2, h3, ← List.append_assoc]

/-- With a host address and a port that hold no `%`, the Hixie76 response is the template with
every part as given: the location is the host address (after `ws://` unless it starts with it
in some letter case), then `:` and the port when the port is non-empty, then the resource
name, whatever the resource name, the origin and the protocol contain. -/
theorem composeOpeningHandshakeResponseV0_verbatim (foldCase : QChar → QChar)
    (accept : QByteArray) (origin hostAddress hostPort resourceName protocol : QString)
    (hA : ∀ c ∈ hostAddress, c ≠ 37) (hP : ∀ c ∈ hostPort, c ≠ 37) :
    composeOpeningHandshakeResponseV0 foldCase accept origin hostAddress hostPort resourceName
        protocol =
      literal "HTTP/1.1 101 WebSocket Protocol Handshake\r\n" ++
        literal "Upgrade: Websocket\r\n" ++
        literal "Connection: Upgrade\r\n" ++
        (literal "Sec-WebSocket-Origin: " ++ origin ++ literal "\r\n") ++
        (literal "Sec-WebSocket-Location: " ++
          (if startsWith foldCase hostAddress (literal "ws://") = true then hostAddress
           else literal "ws://" ++ hostAddress) ++
          (if hostPort = [] then [] else 58 :: hostPort) ++ resourceName ++ literal "\r\n") ++
        (if protocol = [] then []
         else literal "Sec-WebSocket-Protocol: " ++ protocol ++ literal "\r\n") ++
        literal "\r\n" ++
        QLatin1String accept := by
  have hws : ∀ c ∈ literal "ws://", c ≠ 37 := by decide
  have hA2 : ∀ c ∈ (if !startsWith foldCase hostAddress (literal "ws://") then
      literal "ws://" ++ hostAddress else hostAddress), c ≠ 37 := by
    intro c hc
    by_cases hs : startsWith foldCase hostAddress (literal "ws://") = true
    · simp only [hs, Bool.not_true, Bool.false_eq_true, if_false] at hc
      exact hA c hc
    · simp only [Bool.not_eq_true] at hs
      simp only [hs, Bool.not_false, if_true, List.mem_append] at hc
      rcases hc with h | h
      · exact hws c h
      · exact hA c h
  have hP2 : ∀ c ∈ (if !hostPort.isEmpty then 58 :: hostPort else hostPort), c ≠ 37 := by
    intro c hc
    by_cases hp : hostPort.isEmpty = true
    · simp only [hp, Bool.not_true, Bool.false_eq_true, if_false] at hc
      exact hP c hc
    · simp only [Bool.not_eq_true] at hp
      simp only [hp, Bool.not_false, if_true, List.mem_cons] at hc
      rcases hc with h | h
      · rw [h]
        decide
      · exact hP c h
  unfold composeOpeningHandshakeResponseV0
  simp only [location_verbatim _ _ resourceName hA2 hP2, arg_origin_line, arg_protocol_line]
  by_cases hs : startsWith foldCase hostAddress (literal "ws://") = true <;>
    by_cases hp : hostPort = [] <;> by_cases hq : protocol = [] <;> simp [hs, hp, hq]
end QtWebsocket
